import Mathlib

set_option linter.unusedVariables false

/-!
Shallow embedding of the conversation context and memory engine of the
`discord-claude-bot` repository (`bot_discord.py`).

Modelling conventions:
* Python strings are lists of characters (code points), so `len` is
  `List.length` and slicing/stripping are list operations.
* The two module-level dicts `conversation_states` and `user_memories`
  are insertion-ordered association lists inside a `BotState` record;
  `d[k] = v` keeps the position of an existing key and appends a new one,
  exactly like a Python dict.
* The wall clock (`datetime.now`) is an explicit string parameter and
  every external `subprocess.run` invocation is an explicit oracle value
  (`ProcResult`) describing how that call resolved.
* File persistence (`save_history`/`save_memory`) has no effect on the
  in-memory state (write failures are logged and swallowed), so both are
  the identity on `BotState`.
-/

/-- Python strings are sequences of code points. -/
abbrev Str := List Char

/-- Convert a Lean string literal into the model's string type. -/
def lc (s : String) : Str := s.toList

/-- Characters stripped by Python's `str.strip()` (the ASCII whitespace
characters; exotic unicode whitespace does not occur in this code base). -/
def pyWhitespace (c : Char) : Bool :=
  c == ' ' || c == '\t' || c == '\n' || c == '\r' || c == '\x0b' || c == '\x0c'

/-- Python `s.strip()`. -/
def pyStrip (s : Str) : Str :=
  ((s.dropWhile pyWhitespace).reverse.dropWhile pyWhitespace).reverse

/-- Python `s.rstrip("\n")`: remove trailing newline characters. -/
def rstripNl (s : Str) : Str :=
  (s.reverse.dropWhile (fun c => c == '\n')).reverse

/-- Python `s.split(sep)` for a one-character separator, e.g.
`text.split("\n")` in `chunk_message`. Always returns a non-empty list;
`"".split("\n") == [""]`. -/
def splitOnChar (c : Char) : Str → List Str
  | [] => [[]]
  | x :: xs =>
    if x = c then [] :: splitOnChar c xs
    else
      match splitOnChar c xs with
      | [] => [[x]]
      | y :: ys => (x :: y) :: ys

/-- Worker for `splitOnStr`: scans left to right, splitting at each
non-overlapping occurrence of `sep`. `acc` holds the reversed current
piece. -/
def splitOnStrGo (sep : Str) : Str → Str → List Str
  | [], acc => [acc.reverse]
  | c :: rest, acc =>
    if h : sep ≠ [] ∧ sep.isPrefixOf (c :: rest) then
      acc.reverse :: splitOnStrGo sep (List.drop sep.length (c :: rest)) []
    else
      splitOnStrGo sep rest (c :: acc)
termination_by s _ => s.length
decreasing_by
  · simp only [List.length_drop, List.length_cons]
    have : 1 ≤ sep.length := List.length_pos.mpr h.1
    omega
  · simp only [List.length_cons]
    omega

/-- Python `s.split(sep)` for a non-empty multi-character separator, as
used in `parse_summary_and_facts`. -/
def splitOnStr (sep s : Str) : List Str := splitOnStrGo sep s []

/-- Python `sep.join(pieces)`. -/
def joinStr (sep : Str) : List Str → Str
  | [] => []
  | [x] => x
  | x :: xs => x ++ sep ++ joinStr sep xs

/-- Python `s.capitalize()`: first character upper-cased, the rest
lower-cased (the roles here are plain ASCII `"user"`/`"assistant"`). -/
def pyCapitalize : Str → Str
  | [] => []
  | c :: rest => c.toUpper :: rest.map Char.toLower

/-- The backtick character, spelled via its code point. -/
def backquoteChar : Char := Char.ofNat 96

/-! ### Chunker (`chunk_message`, lines 67-131) -/

/-- Embedding of `FENCE_PATTERN.match(line)` for the pattern
`( {0,3})(<backtick>{3,}|~{3,})(.*)` anchored at the start of the line:
at most three leading spaces, then a maximal run of at least three
backticks or tildes (group 2, the marker), then the rest of the line
(group 3). Returns `some (marker, rest)` on a match. -/
def fenceMatch (line : Str) : Option (Str × Str) :=
  let sp := line.takeWhile (fun c => c == ' ')
  if sp.length ≤ 3 then
    match line.drop sp.length with
    | [] => none
    | c :: rest =>
      if c == backquoteChar || c == '~' then
        let run := (c :: rest).takeWhile (fun x => x == c)
        if 3 ≤ run.length then some (run, (c :: rest).drop run.length)
        else none
      else none
  else none

/-- Loop state of `chunk_message`: accumulated chunks, the chunk being
built, and the fence-tracking variables (`fence_marker` is the single
character `marker[0]` while inside a fence). -/
structure ChunkSt where
  chunks : List Str
  current : Str
  insideFence : Bool
  fenceMarker : Str
  fenceLang : Str
deriving DecidableEq

/-- Initial loop state of `chunk_message`. -/
def chunkInit : ChunkSt := ⟨[], [], false, [], []⟩

/-- Fence open/close detection performed at the top of the loop body of
`chunk_message` (lines 92-102). -/
def fenceToggle (st : ChunkSt) (line : Str) : ChunkSt :=
  match fenceMatch line with
  | some (marker, rest) =>
    if st.insideFence = false then
      { st with insideFence := true, fenceMarker := marker.take 1,
                fenceLang := pyStrip rest }
    else if (st.fenceMarker ++ st.fenceMarker ++ st.fenceMarker).isPrefixOf (pyStrip line) then
      { st with insideFence := false, fenceMarker := [], fenceLang := [] }
    else st
  | none => st

/-- One iteration of the `for line in lines` loop of `chunk_message`
(lines 90-126): fence toggling, then the length check with the reserved
space for a closing marker, then either a split (close the fence on the
outgoing chunk, reopen it on the new one) or a plain append. -/
def stepLine (maxChars : Nat) (st : ChunkSt) (line : Str) : ChunkSt :=
  let st1 := fenceToggle st line
  let newLine := line ++ ['\n']
  let potentialLength := st1.current.length + newLine.length
  let closeMarker := st1.fenceMarker ++ st1.fenceMarker ++ st1.fenceMarker
  let reserve := if st1.insideFence then (closeMarker ++ ['\n']).length else 0
  if maxChars < potentialLength + reserve then
    let outgoing := if st1.insideFence then st1.current ++ closeMarker ++ ['\n'] else st1.current
    let newCurrent :=
      if st1.insideFence then closeMarker ++ st1.fenceLang ++ ['\n'] ++ newLine
      else newLine
    { st1 with chunks := st1.chunks ++ [rstripNl outgoing], current := newCurrent }
  else
    { st1 with current := st1.current ++ newLine }

/-- Discord message length limit (`DISCORD_CHAR_LIMIT`, line 66). -/
def DISCORD_CHAR_LIMIT : Nat := 2000

/-- Embedding of `chunk_message(text, max_chars)` (lines 73-131). -/
def chunk_message (text : Str) (maxChars : Nat) : List Str :=
  if text.length ≤ maxChars then [text]
  else
    let final := (splitOnChar '\n' text).foldl (stepLine maxChars) chunkInit
    if final.current ≠ [] then final.chunks ++ [rstripNl final.current]
    else final.chunks

/-! ### Data model (lines 134-173) -/

/-- A conversation turn (`Message` dataclass, lines 144-148). The
`datetime` timestamp is represented by its ISO string. -/
structure Message where
  role : Str
  content : Str
  timestamp : Str
deriving DecidableEq

/-- Per-user conversation state (`ConversationState` dataclass,
lines 151-154). -/
structure ConversationState where
  summary : Str
  messages : List Message
deriving DecidableEq

/-- The two module-level per-user dicts, `conversation_states` and
`user_memories` (lines 158-161), as insertion-ordered association
lists. -/
structure BotState where
  states : List (Int × ConversationState)
  memories : List (Int × List Str)
deriving DecidableEq

/-- Dict lookup: first binding of the key, like `d[k]` / `d.get(k)`. -/
def alistGet {α : Type} : List (Int × α) → Int → Option α
  | [], _ => none
  | p :: rest, k => if p.1 = k then some p.2 else alistGet rest k

/-- Dict assignment `d[k] = v`: replace the binding in place if the key
exists (keys are unique in a Python dict), otherwise append the new key
at the end, preserving insertion order. -/
def alistSet {α : Type} : List (Int × α) → Int → α → List (Int × α)
  | [], k, v => [(k, v)]
  | p :: rest, k, v => if p.1 = k then (k, v) :: rest else p :: alistSet rest k v

/-- The empty conversation state `ConversationState()`. -/
def emptyConv : ConversationState := ⟨[], []⟩

/-- Embedding of `get_user_memory(user_id)` (lines 164-166). -/
def get_user_memory (st : BotState) (userId : Int) : List Str :=
  (alistGet st.memories userId).getD []

/-- Embedding of `get_conversation_state(user_id)` (lines 169-173):
returns the user's state, creating (and storing) an empty one on first
reference. -/
def get_conversation_state (st : BotState) (userId : Int) : ConversationState × BotState :=
  match alistGet st.states userId with
  | some s => (s, st)
  | none => (emptyConv, { st with states := st.states ++ [(userId, emptyConv)] })

/-- The conversation state observable for a user: the stored state, or
the empty one if the user has no entry yet (what `get_conversation_state`
would hand out without the lazy insertion). -/
def stateView (st : BotState) (u : Int) : ConversationState :=
  (alistGet st.states u).getD emptyConv

/-! ### Summarizer output parsing (`parse_summary_and_facts`, lines 211-235) -/

/-- Embedding of `parse_summary_and_facts(output)`: if both of the fixed
section markers occur, split out the summary and the bullet-prefixed fact
lines; otherwise the whole stripped output is the summary and there are
no facts. -/
def parse_summary_and_facts (output : Str) : Str × List Str :=
  if (lc "===SUMMARY===" <:+: output) ∧ (lc "===FACTS===" <:+: output) then
    let parts := splitOnStr (lc "===FACTS===") output
    let summaryPart := pyStrip ((splitOnStr (lc "===SUMMARY===") (parts.headD [])).getLastD [])
    let factsPart := if 1 < parts.length then pyStrip (parts.getD 1 []) else []
    let facts := (splitOnChar '\n' factsPart).foldl
      (fun acc line =>
        let line := pyStrip line
        if (lc "- ").isPrefixOf line && 2 < line.length then acc ++ [pyStrip (line.drop 2)]
        else acc) []
    (summaryPart, facts)
  else (pyStrip output, [])

/-! ### Fact store (`merge_memory_facts`, lines 238-254) -/

/-- Maximum number of retained facts per user (`MAX_MEMORY_FACTS`,
line 140). -/
def MAX_MEMORY_FACTS : Nat := 20

/-- The dedup-append loop inside `merge_memory_facts`: strip each
candidate fact, skip empty ones, skip exact (case-sensitive) duplicates
of anything already in the list, append the rest. -/
def mergeDedup (existing newFacts : List Str) : List Str :=
  newFacts.foldl
    (fun acc fact =>
      let f := pyStrip fact
      if f = [] then acc
      else if f ∈ acc then acc
      else acc ++ [f]) existing

/-- Python `l[-k:]` (for the truncation `existing[-MAX_MEMORY_FACTS:]`):
the last `k` elements, the whole list when `k = 0`. -/
def pyLastSlice (k : Nat) (l : List Str) : List Str :=
  if k = 0 then l else l.drop (l.length - k)

/-- Embedding of `merge_memory_facts(user_id, new_facts)` with the
retention cap as a parameter (the source uses the module constant
`MAX_MEMORY_FACTS`; `merge_memory_facts` below instantiates it). -/
def mergeMemoryFactsP (maxFacts : Nat) (st : BotState) (userId : Int)
    (newFacts : List Str) : BotState :=
  let existing := get_user_memory st userId
  let merged := mergeDedup existing newFacts
  let final := if maxFacts < merged.length then pyLastSlice maxFacts merged else merged
  { st with memories := alistSet st.memories userId final }

/-- Embedding of `merge_memory_facts` at the source's cap of 20. -/
def merge_memory_facts (st : BotState) (userId : Int) (newFacts : List Str) : BotState :=
  mergeMemoryFactsP MAX_MEMORY_FACTS st userId newFacts

/-- Embedding of `save_memory()` (lines 257-270): writes the snapshot to
disk; no effect on in-memory state (failures are logged and swallowed). -/
def save_memory (st : BotState) : BotState := st

/-- Embedding of `save_history()` (lines 289-308): same persistence
policy as `save_memory`. -/
def save_history (st : BotState) : BotState := st

/-! ### History loading (`load_history`, lines 311-343) -/

/-- One serialized turn record `{role, content, timestamp}` as stored on
disk; the ISO timestamp string stands for the parsed `datetime`. -/
structure MsgRecord where
  role : Str
  content : Str
  timestamp : Str
deriving DecidableEq

/-- The two on-disk shapes accepted for one user's state: the legacy
bare list of turn records, and the current dict whose `"summary"` and
`"messages"` fields are read with `.get` defaults (absent fields are
`none`). -/
inductive StateData where
  | legacyList (msgs : List MsgRecord)
  | dictShape (summary : Option Str) (messages : Option (List MsgRecord))
deriving DecidableEq

/-- Reconstruction of a `Message` from a stored record
(`Message(m["role"], m["content"], datetime.fromisoformat(m["timestamp"]))`). -/
def recordToMessage (r : MsgRecord) : Message := ⟨r.role, r.content, r.timestamp⟩

/-- Per-user normalization performed in the body of the `load_history`
loop (lines 317-340): a bare list becomes a state with empty summary;
a dict contributes its `summary`/`messages` fields with defaults. -/
def load_user_state : StateData → ConversationState
  | StateData.legacyList msgs => ⟨[], msgs.map recordToMessage⟩
  | StateData.dictShape summary messages =>
      ⟨summary.getD [], (messages.getD []).map recordToMessage⟩

/-- Embedding of `load_history()` applied to parsed file data: each
user's entry is normalized and stored into `conversation_states`. -/
def load_history (data : List (Int × StateData)) (st : BotState) : BotState :=
  { st with states := data.foldl (fun acc p => alistSet acc p.1 (load_user_state p.2)) st.states }

/-! ### External call oracles -/

/-- How one `subprocess.run` invocation of the external CLI resolved:
a completed process with exit code, stdout and stderr; a
`subprocess.TimeoutExpired`; a `FileNotFoundError`; or some other
exception. -/
inductive ProcResult where
  | ok (returncode : Int) (stdout stderr : Str)
  | timeout
  | fileNotFound
  | exn (msg : Str)
deriving DecidableEq

/-- The external calls a compression cycle may make: the
summary-generation call and the summary-recompression call. -/
structure ExtCalls where
  gen : ProcResult
  comp : ProcResult
deriving DecidableEq

/-! ### Compression pipeline (lines 359-459) -/

/-- Compression thresholds (lines 39, 177, 178). The source reads
`MAX_MESSAGES_BEFORE_COMPRESS` from the environment, defaulting to 16. -/
def MAX_MESSAGES_BEFORE_COMPRESS : Nat := 16

/-- Number of oldest messages folded into the summary per cycle. -/
def MESSAGES_TO_SUMMARIZE : Nat := 10

/-- Maximum summary length before re-compression. -/
def MAX_SUMMARY_CHARS : Nat := 2000

/-- Embedding of `compress_summary(summary)` (lines 371-393) against the
oracle describing the external call: on a non-zero exit code, an empty
stripped stdout, or any exception, the original summary is kept. -/
def compress_summary (o : ProcResult) (summary : Str) : Str :=
  match o with
  | ProcResult.ok rc out _ =>
    if rc ≠ 0 then summary
    else
      let compressed := pyStrip out
      if compressed ≠ [] then compressed else summary
  | _ => summary

/-- Embedding of `generate_summary(messages)` (lines 396-423): returns
`("", [])` on a non-zero exit code, an empty stripped stdout, or any
exception (the `except Exception` clause), otherwise parses the output.
The prompt built from `messages` is consumed by the external call, whose
resolution the oracle supplies. -/
def generate_summary (o : ProcResult) (messages : List Message) : Str × List Str :=
  match o with
  | ProcResult.ok rc out _ =>
    if rc ≠ 0 then ([], [])
    else
      let output := pyStrip out
      if output ≠ [] then parse_summary_and_facts output
      else ([], [])
  | _ => ([], [])

/-- Embedding of `maybe_compress_history(user_id)` (lines 426-459). -/
def maybe_compress_history (ext : ExtCalls) (userId : Int) (st : BotState) : BotState :=
  let g := get_conversation_state st userId
  let state := g.1
  let st1 := g.2
  if MAX_MESSAGES_BEFORE_COMPRESS ≤ state.messages.length then
    let toSummarize := state.messages.take MESSAGES_TO_SUMMARIZE
    let toKeep := state.messages.drop MESSAGES_TO_SUMMARIZE
    let oldSummary := state.summary
    let gs := generate_summary ext.gen toSummarize
    let newSummary := gs.1
    let newFacts := gs.2
    let st2 :=
      if newSummary ≠ [] then
        let finalSummary :=
          if oldSummary ≠ [] then
            let combined := oldSummary ++ lc "\n\n---\n\n" ++ newSummary
            if MAX_SUMMARY_CHARS < combined.length then compress_summary ext.comp combined
            else combined
          else newSummary
        save_history { st1 with states := alistSet st1.states userId ⟨finalSummary, toKeep⟩ }
      else st1
    if newFacts ≠ [] then save_memory (merge_memory_facts st2 userId newFacts) else st2
  else st1

/-! ### Context assembler (`build_context`, lines 462-502) -/

/-- Character budget for injected long-term memory (line 141). -/
def MAX_MEMORY_CHARS : Nat := 1500

/-- Character budget for recent turns in the context (line 135). -/
def MAX_CONTEXT_CHARS : Nat := 8000

/-- The fixed behavioral preamble (`SAFETY_GUARDRAILS`, lines 42-54). -/
def SAFETY_GUARDRAILS : Str :=
  lc "你是一個 Discord 上的個人 AI 助手。\n\n## 回應規則\n- 使用繁體中文回應\n- 簡潔直接，省略開場白和結尾客套話\n- 程式碼用 markdown code block\n- 不確定的事情直接說不確定，不要猜測或編造\n- 執行有風險的操作前先說明你要做什麼\n\n## 使用者背景\n- 軟體開發者，熟悉 Python、Docker\n- 技術問題可以直接給進階回答\n"

/-- The `for msg in reversed(state.messages)` selection loop of
`build_context` (lines 491-496): walk from the newest turn backwards,
stop at the first entry that would blow the budget, and accumulate in
chronological order. -/
def buildRecentAux : List Message → List Str → Nat → List Str
  | [], acc, _ => acc
  | m :: rest, acc, total =>
    let entry := pyCapitalize m.role ++ lc ": " ++ m.content
    if MAX_CONTEXT_CHARS < total + entry.length then acc
    else buildRecentAux rest (entry :: acc) (total + entry.length)

/-- Embedding of `build_context(user_id)` (lines 462-502). The current
timestamp line produced by `get_current_timestamp()` is the `clockLine`
parameter. Returns the assembled context together with the bot state
after the `get_conversation_state` call. -/
def build_context (clockLine : Str) (st : BotState) (userId : Int) : Str × BotState :=
  let g := get_conversation_state st userId
  let state := g.1
  let st1 := g.2
  let parts0 : List Str := [clockLine, SAFETY_GUARDRAILS]
  let memory := get_user_memory st1 userId
  let parts1 :=
    if memory ≠ [] then
      let memoryText := joinStr (lc "\n") (memory.map (fun fact => lc "- " ++ fact))
      let memoryText :=
        if MAX_MEMORY_CHARS < memoryText.length then memoryText.take MAX_MEMORY_CHARS ++ lc "\n..."
        else memoryText
      parts0 ++ [lc "[Long-term memory about this user]\n" ++ memoryText]
    else parts0
  let parts2 :=
    if state.summary ≠ [] then parts1 ++ [lc "[Previous conversation summary]\n" ++ state.summary]
    else parts1
  let parts3 :=
    if state.messages ≠ [] then
      let contextParts := buildRecentAux state.messages.reverse [] 0
      if contextParts ≠ [] then
        parts2 ++ [lc "[Recent conversation]\n" ++ joinStr (lc "\n\n") contextParts]
      else parts2
    else parts2
  (joinStr (lc "\n\n---\n\n") parts3, st1)

/-! ### Turn handling (`ask_claude`, lines 505-592) -/

/-- The retry loop of `ask_claude` (lines 546-592). `fuel` is the number
of remaining iterations of `for attempt in range(max_retries)` and
`attempt` the current index; `oracle attempt` resolves the external call
of that attempt. Only `subprocess.TimeoutExpired` is caught inside the
loop and retried; every other outcome returns immediately. On a
successful non-empty output the turn is appended, persisted and the
compression check runs. -/
def ask_loop (oracle : Nat → ProcResult) (ext : ExtCalls) (clock : Str) (userId : Int)
    (message : Str) (maxRetries : Nat) :
    Nat → Nat → Option Str → BotState → Str × BotState
  | 0, _, lastError, st =>
    (lc "Claude 執行失敗: " ++ lastError.getD (lc "未知錯誤"), st)
  | fuel + 1, attempt, lastError, st =>
    match oracle attempt with
    | ProcResult.ok rc out err =>
      if rc ≠ 0 then
        (lc "Claude 執行失敗: " ++ (if pyStrip err = [] then lc "未知錯誤" else pyStrip err), st)
      else
        let output := pyStrip out
        if output = [] then
          (lc "Claude returned no output.\nstderr: " ++ pyStrip err, st)
        else
          let g := get_conversation_state st userId
          let state := g.1
          let st1 := g.2
          let state2 : ConversationState :=
            ⟨state.summary,
             state.messages ++ [⟨lc "user", message, clock⟩, ⟨lc "assistant", output, clock⟩]⟩
          let st2 := save_history { st1 with states := alistSet st1.states userId state2 }
          (output, maybe_compress_history ext userId st2)
    | ProcResult.timeout =>
      if attempt < maxRetries - 1 then
        ask_loop oracle ext clock userId message maxRetries fuel (attempt + 1)
          (some (lc "timeout")) st
      else
        (lc "Claude 多次超時（" ++ lc (Nat.repr maxRetries) ++ lc " 次），請稍後再試", st)
    | ProcResult.fileNotFound =>
      (lc "claude CLI not found, please make sure Claude Code is installed.", st)
    | ProcResult.exn m => (lc "Error: " ++ m, st)

/-- Embedding of `ask_claude(user_id, message, max_retries, timeout)`
(lines 505-592): build the context, wrap the message into the full
prompt, then run the retry loop. -/
def ask_claude (oracle : Nat → ProcResult) (ext : ExtCalls) (clock : Str) (userId : Int)
    (message : Str) (maxRetries : Nat) (st : BotState) : Str × BotState :=
  let bc := build_context clock st userId
  let context := bc.1
  let st0 := bc.2
  let fullPrompt :=
    if context ≠ [] then
      lc "先前的對話紀錄：\n" ++ context ++ lc "\n\n使用者目前的訊息：\n" ++ message ++
        lc "\n\n請根據以上對話紀錄，回應使用者目前的訊息。"
    else message
  ask_loop oracle ext clock userId message maxRetries maxRetries 0 none st0

/-- A default oracle bundle for concrete runs: both compression-cycle
calls time out. -/
def extDefault : ExtCalls := ⟨ProcResult.timeout, ProcResult.timeout⟩

/-- Decides whether the summary-generation call failed or produced empty
output: any exception, a non-zero exit code, or an empty stripped
stdout. -/
def genFailedOrEmpty : ProcResult → Bool
  | ProcResult.ok rc out _ => rc != 0 || (pyStrip out).isEmpty
  | _ => true

/-- An oracle whose first attempt exits with status 1 and whose second
attempt would succeed with output `"ok"`: under the claim's reading a
non-zero exit would be retried and the turn would succeed. -/
def retryProbeOracle : Nat → ProcResult := fun n =>
  if n = 0 then ProcResult.ok 1 [] (lc "boom") else ProcResult.ok 0 (lc "ok") []

/-- Invariant of the `chunk_message` loop: whenever the scanner is
inside a fence, some already-processed line opened it, and the stored
marker character and language tag come from that opening line. -/
def FenceOpened (processed : List Str) (st : ChunkSt) : Prop :=
  st.insideFence = true →
    ∃ lop m rest, lop ∈ processed ∧ fenceMatch lop = some (m, rest) ∧
      st.fenceMarker = m.take 1 ∧ st.fenceLang = pyStrip rest

/-! ## Helper lemmas -/

theorem alistGet_alistSet_self {α : Type} (d : List (Int × α)) (k : Int) (v : α) :
    alistGet (alistSet d k v) k = some v := by
  induction d with
  | nil => simp [alistGet, alistSet]
  | cons p rest ih =>
    by_cases h : p.1 = k
    · simp [alistGet, alistSet, h]
    · simp [alistGet, alistSet, h, ih]

theorem alistGet_alistSet_ne {α : Type} (d : List (Int × α)) (k k' : Int) (v : α)
    (h : k' ≠ k) : alistGet (alistSet d k v) k' = alistGet d k' := by
  induction d with
  | nil =>
    simp only [alistSet, alistGet]
    rw [if_neg (fun hh => h hh.symm)]
  | cons p rest ih =>
    by_cases hp : p.1 = k
    · simp only [alistSet, if_pos hp, alistGet]
      rw [if_neg (fun hh => h hh.symm),
        if_neg (show ¬p.1 = k' from by rw [hp]; exact fun hh => h hh.symm)]
    · simp only [alistSet, if_neg hp, alistGet]
      by_cases hp' : p.1 = k'
      · rw [if_pos hp', if_pos hp']
      · rw [if_neg hp', if_neg hp', ih]

theorem alistGet_append_ne {α : Type} (d : List (Int × α)) (k u : Int) (v : α)
    (h : k ≠ u) : alistGet (d ++ [(k, v)]) u = alistGet d u := by
  induction d with
  | nil => simp [alistGet, h]
  | cons p rest ih =>
    by_cases hp : p.1 = u
    · simp [alistGet, hp]
    · simp [alistGet, hp, ih]

theorem alistGet_append_self_of_none {α : Type} (d : List (Int × α)) (k : Int) (v : α)
    (h : alistGet d k = none) : alistGet (d ++ [(k, v)]) k = some v := by
  induction d with
  | nil => simp [alistGet]
  | cons p rest ih =>
    simp only [alistGet] at h
    by_cases hp : p.1 = k
    · rw [if_pos hp] at h; cases h
    · rw [if_neg hp] at h
      rw [List.cons_append]
      simp only [alistGet]
      rw [if_neg hp]
      exact ih h

theorem get_conversation_state_view (st : BotState) (uid u : Int) :
    stateView (get_conversation_state st uid).2 u = stateView st u := by
  unfold get_conversation_state
  cases h : alistGet st.states uid with
  | some s => rfl
  | none =>
    by_cases hu : uid = u
    · subst hu
      simp [stateView, h, alistGet_append_self_of_none st.states uid emptyConv h]
    · simp [stateView, alistGet_append_ne st.states uid u emptyConv hu]

theorem get_conversation_state_memories (st : BotState) (uid : Int) :
    (get_conversation_state st uid).2.memories = st.memories := by
  unfold get_conversation_state
  cases alistGet st.states uid <;> rfl

theorem build_context_snd (clock : Str) (st : BotState) (uid : Int) :
    (build_context clock st uid).2 = (get_conversation_state st uid).2 := rfl

theorem generate_summary_of_failed (o : ProcResult) (msgs : List Message)
    (h : genFailedOrEmpty o = true) : generate_summary o msgs = ([], []) := by
  cases o with
  | ok rc out err =>
    simp only [genFailedOrEmpty, Bool.or_eq_true, bne_iff_ne, ne_eq,
      List.isEmpty_iff] at h
    simp only [generate_summary]
    by_cases hrc : rc = 0
    · have hout : pyStrip out = [] := by
        rcases h with h1 | h2
        · exact absurd hrc h1
        · exact h2
      simp [hrc, hout]
    · simp [hrc]
  | timeout => rfl
  | fileNotFound => rfl
  | exn m => rfl

theorem maybe_compress_history_of_failed (ext : ExtCalls) (uid : Int) (st : BotState)
    (h : genFailedOrEmpty ext.gen = true) :
    maybe_compress_history ext uid st = (get_conversation_state st uid).2 := by
  simp only [maybe_compress_history, generate_summary_of_failed ext.gen _ h]
  simp

/-! ## Claim theorems -/

/-- C1: `build_context` is read-only: for every user identity, calling
it leaves every user's observable `ConversationState` (summary and
messages, with a missing entry observing as the empty state) and every
user's fact list unchanged — including when the queried user has no
existing state, in which case the only effect is materializing the
default empty entry via `get_conversation_state`. -/
theorem build_context_readonly (clock : Str) (st : BotState) (uid u : Int) :
    stateView (build_context clock st uid).2 u = stateView st u ∧
    (build_context clock st uid).2.memories = st.memories := by
  rw [build_context_snd]
  exact ⟨get_conversation_state_view st uid u, get_conversation_state_memories st uid⟩

/-- C5: compression is atomic on failure: if the summary-generation call
of a compression cycle fails (non-zero exit code, timeout or any other
exception) or returns empty output, `maybe_compress_history` leaves
every user's observable summary and messages (and in fact the whole
conversation map, up to lazily materializing the queried user's empty
entry) unchanged. -/
theorem maybe_compress_history_atomic (ext : ExtCalls) (uid : Int) (st : BotState)
    (h : genFailedOrEmpty ext.gen = true) :
    ∀ u, stateView (maybe_compress_history ext uid st) u = stateView st u := by
  intro u
  rw [maybe_compress_history_of_failed ext uid st h]
  exact get_conversation_state_view st uid u

/-- Witness for C5: a concrete state with 16 buffered messages (at the
compression threshold) and a timed-out summarizer call: the user's
summary and messages are untouched. -/
theorem maybe_compress_history_atomic_witness :
    genFailedOrEmpty extDefault.gen = true ∧
    stateView
      (maybe_compress_history extDefault 5
        ⟨[(5, ⟨lc "S", List.replicate 16 ⟨lc "user", lc "m", lc "t"⟩⟩)], []⟩) 5 =
      stateView ⟨[(5, ⟨lc "S", List.replicate 16 ⟨lc "user", lc "m", lc "t"⟩⟩)], []⟩ 5 :=
  ⟨by decide,
   maybe_compress_history_atomic extDefault 5
     ⟨[(5, ⟨lc "S", List.replicate 16 ⟨lc "user", lc "m", lc "t"⟩⟩)], []⟩ (by decide) 5⟩

/-- C6: the fact list never exceeds the retention cap after a merge, and
on overflow the oldest facts are dropped from the front (the stored list
is a suffix of the deduplicated append, of length `min cap len`); the
spec's concrete example with a cap of 2 is included. -/
theorem merge_memory_facts_cap (st : BotState) (uid : Int) (newFacts : List Str) :
    (get_user_memory (merge_memory_facts st uid newFacts) uid).length =
      min MAX_MEMORY_FACTS (mergeDedup (get_user_memory st uid) newFacts).length ∧
    get_user_memory (merge_memory_facts st uid newFacts) uid <:+
      mergeDedup (get_user_memory st uid) newFacts ∧
    get_user_memory (mergeMemoryFactsP 2 ⟨[], [(1, [lc "A", lc "B"])]⟩ 1 [lc "C"]) 1 =
      [lc "B", lc "C"] := by
  refine ⟨?_, ?_, by decide⟩ <;>
    simp only [merge_memory_facts, mergeMemoryFactsP, get_user_memory,
      alistGet_alistSet_self, Option.getD_some]
  · by_cases hlt :
      MAX_MEMORY_FACTS <
        (mergeDedup ((alistGet st.memories uid).getD []) newFacts).length
    · rw [if_pos hlt]
      simp only [pyLastSlice]
      rw [if_neg (by simp [MAX_MEMORY_FACTS])]
      rw [List.length_drop]
      omega
    · rw [if_neg hlt]
      omega
  · by_cases hlt :
      MAX_MEMORY_FACTS <
        (mergeDedup ((alistGet st.memories uid).getD []) newFacts).length
    · rw [if_pos hlt]
      simp only [pyLastSlice]
      rw [if_neg (by simp [MAX_MEMORY_FACTS])]
      exact List.drop_suffix _ _
    · rw [if_neg hlt]

/-- C7: merging a fact whose stripped text is already present
(case-sensitive exact match) leaves every user's fact list unchanged
(under the store's cap invariant, which every merge re-establishes);
the spec's `["A","B"] + ["B","C"] = ["A","B","C"]` example and the
merge-twice-appears-once example are included. -/
theorem merge_memory_facts_idempotent (st : BotState) (uid : Int) (fact : Str)
    (hmem : pyStrip fact ∈ get_user_memory st uid)
    (hlen : (get_user_memory st uid).length ≤ MAX_MEMORY_FACTS) :
    (∀ u, get_user_memory (merge_memory_facts st uid [fact]) u = get_user_memory st u) ∧
    get_user_memory (merge_memory_facts ⟨[], [(1, [lc "A", lc "B"])]⟩ 1 [lc "B", lc "C"]) 1 =
      [lc "A", lc "B", lc "C"] ∧
    get_user_memory (merge_memory_facts (merge_memory_facts ⟨[], []⟩ 1 [lc "X"]) 1 [lc "X"]) 1 =
      [lc "X"] := by
  refine ⟨?_, by decide, by decide⟩
  intro u
  have hmerged : mergeDedup (get_user_memory st uid) [fact] = get_user_memory st uid := by
    simp only [mergeDedup, List.foldl]
    by_cases hf : pyStrip fact = []
    · simp [hf]
    · simp [hf, hmem]
  simp only [merge_memory_facts, mergeMemoryFactsP, hmerged]
  rw [if_neg (by omega)]
  by_cases hu : u = uid
  · subst hu
    simp only [get_user_memory, alistGet_alistSet_self, Option.getD_some]
  · simp only [get_user_memory, alistGet_alistSet_ne st.memories uid u _ hu]

/-- Witness for C7: with stored facts `["A","B"]`, merging the duplicate
`"B"` leaves the list `["A","B"]`. -/
theorem merge_memory_facts_idempotent_witness :
    pyStrip (lc "B") ∈ get_user_memory ⟨[], [(1, [lc "A", lc "B"])]⟩ 1 ∧
    (get_user_memory ⟨[], [(1, [lc "A", lc "B"])]⟩ 1).length ≤ MAX_MEMORY_FACTS ∧
    get_user_memory (merge_memory_facts ⟨[], [(1, [lc "A", lc "B"])]⟩ 1 [lc "B"]) 1 =
      get_user_memory ⟨[], [(1, [lc "A", lc "B"])]⟩ 1 :=
  ⟨by decide, by decide,
   (merge_memory_facts_idempotent ⟨[], [(1, [lc "A", lc "B"])]⟩ 1 (lc "B")
     (by decide) (by decide)).1 1⟩

/-- C8: the load routine accepts both historical on-disk shapes and
normalizes them: a bare list of turn records becomes a state with empty
summary and those messages; a `{summary, messages}` object becomes a
state with those fields, absent fields defaulting to empty. -/
theorem load_history_shapes (st : BotState) (uid : Int) (msgs : List MsgRecord)
    (s : Option Str) (m : Option (List MsgRecord)) :
    alistGet (load_history [(uid, StateData.legacyList msgs)] st).states uid =
      some ⟨[], msgs.map recordToMessage⟩ ∧
    alistGet (load_history [(uid, StateData.dictShape s m)] st).states uid =
      some ⟨s.getD [], (m.getD []).map recordToMessage⟩ := by
  constructor <;>
    simp only [load_history, List.foldl, load_user_state, alistGet_alistSet_self]

/-- C9: a text no longer than the limit is returned as the single-element
sequence holding exactly that text. -/
theorem chunk_message_small (t : Str) (M : Nat) (h : t.length ≤ M) :
    chunk_message t M = [t] := by
  simp [chunk_message, h]

/-- Witness for C9 at a concrete short text. -/
theorem chunk_message_small_witness :
    (lc "hi").length ≤ 5 ∧ chunk_message (lc "hi") 5 = [lc "hi"] :=
  ⟨by decide, chunk_message_small (lc "hi") 5 (by decide)⟩

/-- C10: when exactly one of the two section markers occurs in the
summarizer output, `parse_summary_and_facts` takes the degraded path and
returns the whole stripped output (marker text included) as the summary
with no facts; the two-section path requires both markers. -/
theorem parse_summary_and_facts_degraded (output : Str)
    (h : ((lc "===SUMMARY===" <:+: output) ∧ ¬(lc "===FACTS===" <:+: output)) ∨
         (¬(lc "===SUMMARY===" <:+: output) ∧ (lc "===FACTS===" <:+: output))) :
    parse_summary_and_facts output = (pyStrip output, []) := by
  unfold parse_summary_and_facts
  rw [if_neg]
  rintro ⟨hs, hf⟩
  rcases h with ⟨_, h2⟩ | ⟨h1, _⟩
  · exact h2 hf
  · exact h1 hs

/-- Witness for C10: an output holding only the summary marker parses to
itself (stripped) with zero facts. -/
theorem parse_summary_and_facts_degraded_witness :
    ((lc "===SUMMARY===" <:+: lc "===SUMMARY===\nonly one") ∧
      ¬(lc "===FACTS===" <:+: lc "===SUMMARY===\nonly one")) ∧
    parse_summary_and_facts (lc "===SUMMARY===\nonly one") =
      (pyStrip (lc "===SUMMARY===\nonly one"), []) :=
  ⟨by decide,
   parse_summary_and_facts_degraded (lc "===SUMMARY===\nonly one") (Or.inl (by decide))⟩

theorem ask_loop_all_timeout (oracle : Nat → ProcResult) (ext : ExtCalls) (clock : Str)
    (uid : Int) (message : Str) (mr : Nat) (h : ∀ n, oracle n = ProcResult.timeout) :
    ∀ fuel attempt le st, 1 ≤ fuel → attempt + fuel = mr →
      ask_loop oracle ext clock uid message mr fuel attempt le st =
        (lc "Claude 多次超時（" ++ lc (Nat.repr mr) ++ lc " 次），請稍後再試", st) := by
  intro fuel
  induction fuel with
  | zero => omega
  | succ f ih =>
    intro attempt le st _ hsum
    simp only [ask_loop, h attempt]
    by_cases hlt : attempt < mr - 1
    · rw [if_pos hlt]
      exact ih (attempt + 1) (some (lc "timeout")) st (by omega) (by omega)
    · rw [if_neg hlt]

/-- C2 (amended): only a `subprocess.TimeoutExpired` is retried, with
backoff, up to `max_retries` attempts and then surfaced as a user-visible
timeout message; a non-zero exit status and a missing CLI executable are
surfaced immediately as user-visible failure messages without any retry.
In every such failure outcome every user's observable conversation state
(summary and messages) is unchanged — no half turn is appended. -/
theorem ask_claude_failure_semantics (oracle : Nat → ProcResult) (ext : ExtCalls)
    (clock : Str) (uid : Int) (message : Str) (mr : Nat) (st : BotState)
    (rc : Int) (out err : Str) :
    (1 ≤ mr → (∀ n, oracle n = ProcResult.timeout) →
      ask_claude oracle ext clock uid message mr st =
        (lc "Claude 多次超時（" ++ lc (Nat.repr mr) ++ lc " 次），請稍後再試",
         (build_context clock st uid).2)) ∧
    (1 ≤ mr → oracle 0 = ProcResult.ok rc out err → rc ≠ 0 →
      ask_claude oracle ext clock uid message mr st =
        (lc "Claude 執行失敗: " ++ (if pyStrip err = [] then lc "未知錯誤" else pyStrip err),
         (build_context clock st uid).2)) ∧
    (1 ≤ mr → oracle 0 = ProcResult.fileNotFound →
      ask_claude oracle ext clock uid message mr st =
        (lc "claude CLI not found, please make sure Claude Code is installed.",
         (build_context clock st uid).2)) ∧
    (∀ u, stateView (build_context clock st uid).2 u = stateView st u) := by
  refine ⟨?_, ?_, ?_, ?_⟩
  · intro hmr hall
    simp only [ask_claude]
    exact ask_loop_all_timeout oracle ext clock uid message mr hall mr 0 none
      (build_context clock st uid).2 hmr (by omega)
  · intro hmr h0 hrc
    obtain ⟨k, rfl⟩ : ∃ k, mr = k + 1 := ⟨mr - 1, by omega⟩
    simp only [ask_claude, ask_loop, h0]
    rw [if_pos hrc]
  · intro hmr h0
    obtain ⟨k, rfl⟩ : ∃ k, mr = k + 1 := ⟨mr - 1, by omega⟩
    simp only [ask_claude, ask_loop, h0]
  · intro u
    rw [build_context_snd]
    exact get_conversation_state_view st uid u

/-- Witness for C2 (amended): two attempts that both time out produce
the user-visible timeout message and leave the state as `build_context`
left it (only the lazily created empty entry for the queried user). -/
theorem ask_claude_failure_semantics_witness :
    ask_claude (fun _ => ProcResult.timeout) extDefault [] 0 [] 2 ⟨[], []⟩ =
      (lc "Claude 多次超時（" ++ lc (Nat.repr 2) ++ lc " 次），請稍後再試",
       (build_context [] ⟨[], []⟩ 0).2) :=
  (ask_claude_failure_semantics (fun _ => ProcResult.timeout) extDefault [] 0 [] 2
    ⟨[], []⟩ 0 [] []).1 (by omega) (fun _ => rfl)

/-- Counterexample to C2 as stated: with a retry budget of 3 and a
successful second attempt available, `ask_claude` surfaces the non-zero
exit of the first attempt immediately — the failure message is returned,
the successful retry output `"ok"` is never reached, so non-zero exit
status (and likewise a missing executable) is not retried. -/
theorem ask_claude_no_retry_on_nonzero_exit :
    ask_claude retryProbeOracle extDefault [] 0 [] 3 ⟨[], []⟩ =
      (lc "Claude 執行失敗: boom", ⟨[(0, emptyConv)], []⟩) ∧
    (ask_claude retryProbeOracle extDefault [] 0 [] 3 ⟨[], []⟩).1 ≠ lc "ok" := by
  constructor
  · rfl
  · decide

/-- C3 (evaluation at a failing input): the chunker emits a fragment of
13 characters against a budget of 10. The second line opens a fence, so
the length check already reserves closing-marker space and the split
appends a closing marker to the outgoing fragment — a fragment that was
legal before the marker was added goes over budget, and it is not a
single over-long source line of the input. -/
theorem chunk_message_overran_budget :
    chunk_message (lc "aaaaaaaaa\n```py") 10 =
      [lc "aaaaaaaaa\n```", lc "```py\n```py"] ∧
    10 < (lc "aaaaaaaaa\n```").length ∧
    lc "aaaaaaaaa\n```" ∉ splitOnChar '\n' (lc "aaaaaaaaa\n```py") := by
  refine ⟨rfl, by decide, by decide⟩

theorem fenceToggle_chunks (st : ChunkSt) (l : Str) :
    (fenceToggle st l).chunks = st.chunks := by
  unfold fenceToggle
  repeat' split
  all_goals rfl

theorem fenceToggle_current (st : ChunkSt) (l : Str) :
    (fenceToggle st l).current = st.current := by
  unfold fenceToggle
  repeat' split
  all_goals rfl

theorem stepLine_chunks_mem (M : Nat) (st : ChunkSt) (l : Str) (x : Str)
    (h : x ∈ st.chunks) : x ∈ (stepLine M st l).chunks := by
  have hc := fenceToggle_chunks st l
  simp only [stepLine]
  repeat' split
  all_goals dsimp only
  all_goals rw [hc]
  all_goals first
    | exact h
    | exact List.mem_append_left _ h

theorem foldl_chunks_mem (M : Nat) :
    ∀ (ls : List Str) (st : ChunkSt) (x : Str), x ∈ st.chunks →
      x ∈ (List.foldl (stepLine M) st ls).chunks := by
  intro ls
  induction ls with
  | nil => intro st x h; exact h
  | cons l rest ih =>
    intro st x h
    exact ih (stepLine M st l) x (stepLine_chunks_mem M st l x h)

theorem fenceToggle_opened (p : List Str) (st : ChunkSt) (l : Str)
    (h : FenceOpened p st) : FenceOpened (p ++ [l]) (fenceToggle st l) := by
  intro hin
  cases hm : fenceMatch l with
  | none =>
    have heq : fenceToggle st l = st := by simp only [fenceToggle, hm]
    rw [heq] at hin ⊢
    obtain ⟨lop, m, rest, hmem, hfm, hmk, hlg⟩ := h hin
    exact ⟨lop, m, rest, List.mem_append_left _ hmem, hfm, hmk, hlg⟩
  | some pr =>
    obtain ⟨m, r⟩ := pr
    have hunf : fenceToggle st l =
        if st.insideFence = false then
          { st with insideFence := true, fenceMarker := m.take 1, fenceLang := pyStrip r }
        else if (st.fenceMarker ++ st.fenceMarker ++ st.fenceMarker).isPrefixOf (pyStrip l) then
          { st with insideFence := false, fenceMarker := [], fenceLang := [] }
        else st := by
      simp only [fenceToggle, hm]
    by_cases h1 : st.insideFence = false
    · rw [hunf, if_pos h1]
      exact ⟨l, m, r, List.mem_append_right _ (by simp), hm, rfl, rfl⟩
    · by_cases h2 :
        (st.fenceMarker ++ st.fenceMarker ++ st.fenceMarker).isPrefixOf (pyStrip l) = true
      · exfalso
        rw [hunf, if_neg h1, if_pos h2] at hin
        simp at hin
      · rw [hunf, if_neg h1, if_neg h2] at hin ⊢
        obtain ⟨lop, m', rest, hmem, hfm, hmk, hlg⟩ := h hin
        exact ⟨lop, m', rest, List.mem_append_left _ hmem, hfm, hmk, hlg⟩

theorem stepLine_fence_eq (M : Nat) (st : ChunkSt) (l : Str) :
    (stepLine M st l).insideFence = (fenceToggle st l).insideFence ∧
    (stepLine M st l).fenceMarker = (fenceToggle st l).fenceMarker ∧
    (stepLine M st l).fenceLang = (fenceToggle st l).fenceLang := by
  simp only [stepLine]
  repeat' split
  all_goals exact ⟨rfl, rfl, rfl⟩

theorem stepLine_opened (M : Nat) (p : List Str) (st : ChunkSt) (l : Str)
    (h : FenceOpened p st) : FenceOpened (p ++ [l]) (stepLine M st l) := by
  intro hin
  obtain ⟨e1, e2, e3⟩ := stepLine_fence_eq M st l
  rw [e1] at hin
  obtain ⟨lop, m, rest, hmem, hfm, hmk, hlg⟩ := fenceToggle_opened p st l h hin
  exact ⟨lop, m, rest, hmem, hfm, by rw [e2, hmk], by rw [e3, hlg]⟩

theorem foldl_opened (M : Nat) :
    ∀ (ls p : List Str) (st : ChunkSt), FenceOpened p st →
      FenceOpened (p ++ ls) (List.foldl (stepLine M) st ls) := by
  intro ls
  induction ls with
  | nil => intro p st h; simpa using h
  | cons l rest ih =>
    intro p st h
    have h2 := ih (p ++ [l]) (stepLine M st l) (stepLine_opened M p st l h)
    simpa [List.append_assoc] using h2

theorem fenceMatch_shape (l m rest : Str) (h : fenceMatch l = some (m, rest)) :
    ∃ c, (c = backquoteChar ∨ c = '~') ∧ m.take 1 = [c] := by
  simp only [fenceMatch] at h
  split at h
  · split at h
    · cases h
    · rename_i c rest' heq
      split at h
      · rename_i hc
        split at h
        · rename_i hrun
          simp only [Option.some.injEq, Prod.mk.injEq] at h
          refine ⟨c, ?_, ?_⟩
          · simpa using hc
          · rw [← h.1]
            simp [List.takeWhile_cons]
        · cases h
      · cases h
  · cases h

theorem rstripNl_close (xs : Str) (c : Char) (hc : (c == '\n') = false) :
    rstripNl (xs ++ [c, c, c, '\n']) = xs ++ [c, c, c] := by
  simp [rstripNl, hc]

/-- C4 (amended): whenever `chunk_message` splits while inside a fence
(the state after processing some prefix of the lines has the fence flag
set and the length check fires on the next line), the outgoing fragment
is the accumulated text with a three-character closing marker line
appended, the next fragment starts with a reopening line made of exactly
three copies of the opening fence's marker character followed by the
opening fence's stripped language tag, and the closed fragment is one of
the fragments `chunk_message` returns. The reopening marker is
normalized to three characters (`marker[0] * 3`), so it matches the
original opening marker's character but not necessarily its length. -/
theorem chunk_message_fence_split (t : Str) (M : Nat) (ls1 ls2 : List Str) (l : Str)
    (st st1 : ChunkSt)
    (hlen : M < t.length)
    (hsplit : splitOnChar '\n' t = ls1 ++ l :: ls2)
    (hst : st = List.foldl (stepLine M) chunkInit ls1)
    (hst1 : st1 = fenceToggle st l)
    (hin : st1.insideFence = true)
    (hcond : M < st1.current.length + (l ++ ['\n']).length +
      ((st1.fenceMarker ++ st1.fenceMarker ++ st1.fenceMarker) ++ ['\n']).length) :
    ∃ c lop m rest,
      (c = backquoteChar ∨ c = '~') ∧
      lop ∈ ls1 ++ [l] ∧
      fenceMatch lop = some (m, rest) ∧
      st1.fenceMarker = [c] ∧
      st1.fenceLang = pyStrip rest ∧
      (stepLine M st l).chunks = st1.chunks ++ [st1.current ++ [c, c, c]] ∧
      (stepLine M st l).current = [c, c, c] ++ pyStrip rest ++ ['\n'] ++ (l ++ ['\n']) ∧
      st1.current ++ [c, c, c] ∈ chunk_message t M := by
  have hopen0 : FenceOpened ([] : List Str) chunkInit := by
    intro hb
    simp [chunkInit] at hb
  have hopen1 : FenceOpened ls1 st := by
    rw [hst]
    simpa using foldl_opened M ls1 [] chunkInit hopen0
  have hopen2 : FenceOpened (ls1 ++ [l]) st1 := by
    rw [hst1]
    exact fenceToggle_opened ls1 st l hopen1
  obtain ⟨lop, m, rest, hmem, hfm, hmk, hlg⟩ := hopen2 hin
  obtain ⟨c, hcor, htake⟩ := fenceMatch_shape lop m rest hfm
  have hmkc : st1.fenceMarker = [c] := by rw [hmk, htake]
  have hcne : (c == '\n') = false := by
    rcases hcor with hh | hh <;> subst hh <;> decide
  have hstep : stepLine M st l =
      { st1 with
        chunks := st1.chunks ++
          [rstripNl (st1.current ++ (st1.fenceMarker ++ st1.fenceMarker ++ st1.fenceMarker) ++ ['\n'])],
        current := st1.fenceMarker ++ st1.fenceMarker ++ st1.fenceMarker ++ st1.fenceLang ++
          ['\n'] ++ (l ++ ['\n']) } := by
    simp only [stepLine, ← hst1, hin, if_true]
    rw [if_pos hcond]
  have hchunks : (stepLine M st l).chunks = st1.chunks ++ [st1.current ++ [c, c, c]] := by
    rw [hstep]
    dsimp only
    rw [hmkc]
    congr 2
    rw [show st1.current ++ ([c] ++ [c] ++ [c]) ++ ['\n'] = st1.current ++ [c, c, c, '\n'] by simp]
    exact rstripNl_close st1.current c hcne
  have hcur : (stepLine M st l).current = [c, c, c] ++ pyStrip rest ++ ['\n'] ++ (l ++ ['\n']) := by
    rw [hstep]
    dsimp only
    rw [hmkc, hlg]
    simp
  have hm1 : st1.current ++ [c, c, c] ∈ (stepLine M st l).chunks := by
    rw [hchunks]
    exact List.mem_append_right _ (by simp)
  have hfold : List.foldl (stepLine M) chunkInit (splitOnChar '\n' t) =
      List.foldl (stepLine M) (stepLine M st l) ls2 := by
    rw [hsplit, List.foldl_append, List.foldl_cons, ← hst]
  have hm2 : st1.current ++ [c, c, c] ∈
      (List.foldl (stepLine M) chunkInit (splitOnChar '\n' t)).chunks := by
    rw [hfold]
    exact foldl_chunks_mem M ls2 _ _ hm1
  refine ⟨c, lop, m, rest, hcor, hmem, hfm, hmkc, hlg, hchunks, hcur, ?_⟩
  unfold chunk_message
  rw [if_neg (by omega)]
  dsimp only
  split
  · exact List.mem_append_left _ hm2
  · exact hm2

/-- Witness for C4 (amended): fragment 1 of the example text ends with
the closing line made of three backticks and fragment 2 starts with the
reopening line (three marker characters plus the language tag `py`). -/
theorem chunk_message_fence_split_witness :
    (fenceToggle (List.foldl (stepLine 20) chunkInit [lc "````py", lc "abcdefgh"])
        (lc "ijklmnopq")).insideFence = true ∧
    (∃ c lop m rest,
      (c = backquoteChar ∨ c = '~') ∧
      lop ∈ [lc "````py", lc "abcdefgh"] ++ [lc "ijklmnopq"] ∧
      fenceMatch lop = some (m, rest) ∧
      (fenceToggle (List.foldl (stepLine 20) chunkInit [lc "````py", lc "abcdefgh"])
          (lc "ijklmnopq")).fenceMarker = [c] ∧
      (fenceToggle (List.foldl (stepLine 20) chunkInit [lc "````py", lc "abcdefgh"])
          (lc "ijklmnopq")).fenceLang = pyStrip rest ∧
      (stepLine 20 (List.foldl (stepLine 20) chunkInit [lc "````py", lc "abcdefgh"])
          (lc "ijklmnopq")).chunks =
        (fenceToggle (List.foldl (stepLine 20) chunkInit [lc "````py", lc "abcdefgh"])
            (lc "ijklmnopq")).chunks ++
          [(fenceToggle (List.foldl (stepLine 20) chunkInit [lc "````py", lc "abcdefgh"])
              (lc "ijklmnopq")).current ++ [c, c, c]] ∧
      (stepLine 20 (List.foldl (stepLine 20) chunkInit [lc "````py", lc "abcdefgh"])
          (lc "ijklmnopq")).current =
        [c, c, c] ++ pyStrip rest ++ ['\n'] ++ (lc "ijklmnopq" ++ ['\n']) ∧
      (fenceToggle (List.foldl (stepLine 20) chunkInit [lc "````py", lc "abcdefgh"])
          (lc "ijklmnopq")).current ++ [c, c, c] ∈
        chunk_message (lc "````py\nabcdefgh\nijklmnopq") 20) :=
  ⟨by decide,
   chunk_message_fence_split (lc "````py\nabcdefgh\nijklmnopq") 20
     [lc "````py", lc "abcdefgh"] [] (lc "ijklmnopq") _ _
     (by decide) (by decide) rfl rfl (by decide) (by decide)⟩

/-- Counterexample to C4 as stated: a fenced block opened with the
four-backtick marker spans the split of this text at budget 20, but the
next fragment is reopened with only three backticks — the reopening line
does not use the same marker as the original opening fence (it keeps
only the marker's first character, repeated three times). -/
theorem chunk_message_fence_marker_not_preserved :
    chunk_message (lc "````py\nabcdefgh\nijklmnopq") 20 =
      [lc "````py\nabcdefgh\n```", lc "```py\nijklmnopq"] ∧
    fenceMatch (lc "````py") = some (lc "````", lc "py") ∧
    List.isPrefixOf (lc "````") (lc "```py\nijklmnopq") = false := by
  refine ⟨rfl, by decide, by decide⟩
